import Mathlib

/-!
# gin-graphql: lifecycle, shutdown notification and request input

A shallow embedding of `main.go`: the package-level configuration, the
helpers `CheckErrFatal`, `NoticeSystemManager` and `AllInput`, the startup
sequence of `main`, and the three concurrent tasks of `main` (listener task,
interrupt task, main's wait on `exit`) as a step function over an explicit
state.
-/

namespace GinGraphql

/-! ## Values of type `interface{}` used as errors -/

/-- A non-nil value held by an `interface{}` error variable.  The program
observes such a value only through the nil test and through its rendering by
the `%v` verb, so the rendering is what is kept. -/
structure ErrVal where
  rendering : String
  deriving DecidableEq, Repr

/-- The variable `err` of `main` has type `interface{}`: `none` is `nil`. -/
abbrev Iface := Option ErrVal

/-- The rendering `fmt.Sprintf("%v", err)`; a nil interface renders as `<nil>`. -/
def sprintV : Iface → String
  | none => "<nil>"
  | some e => e.rendering

/-- The rendering of `http.ErrServerClosed`, the literal compared at line 146. -/
def serverClosedText : String := "http: Server closed"

/-- The value `http.ErrServerClosed`. -/
def errServerClosed : ErrVal := ⟨serverClosedText⟩

/-! ## Package-level variables -/

/-- The package-level variables `HOST`, `PORT` and `AdminChat` (its `ID`),
set once by the startup sequence of `main`. -/
structure Globals where
  HOST : String
  PORT : String
  AdminChat : Int
  deriving DecidableEq, Repr

/-- One call `Bot.SendMessage(recipient, text, nil)`. -/
structure Sent where
  recipient : Int
  text : String
  deriving DecidableEq, Repr

/-! ## `NoticeSystemManager` -/

/-- The local `message` of `NoticeSystemManager` when it reaches line 192. -/
def noticeMessage (g : Globals) (err : Iface) : String :=
  let message := g.HOST ++ g.PORT ++ " 伺服器關閉了!  "
  match err with
  | some e => message ++ ("(" ++ sprintV (some e) ++ ")")
  | none => message ++ "(手動關閉)"

/-- The function `NoticeSystemManager(err)`: the calls of `Bot.SendMessage` it adds to the
calls made so far. -/
def NoticeSystemManager (g : Globals) (err : Iface) (outbox : List Sent) : List Sent :=
  outbox ++ [⟨g.AdminChat, noticeMessage g err⟩]

/-- The suffix of the shutdown text for a cause, as the specification words it. -/
def noticeSuffix : Iface → String
  | some e => "(" ++ e.rendering ++ ")"
  | none => "(手動關閉)"

/-! ## `CheckErrFatal` -/

/-- What `CheckErrFatal` does: return to the caller, or end the process through
`log.Fatalln` with the operands it prints. -/
inductive FatalOutcome where
  | returned
  | fatal (operands : List String)
  deriving DecidableEq, Repr

/-- The function `CheckErrFatal(err, msg...)`.  `log.Fatalln` does not return, so with an
empty `msg` only the first `log.Fatalln(err)` runs. -/
def CheckErrFatal (err : Iface) (msg : List String) : FatalOutcome :=
  match err with
  | some e =>
    if msg.length = 0 then .fatal [sprintV (some e)]
    else .fatal (msg ++ [sprintV (some e)])
  | none => .returned

/-! ## Startup sequence of `main` (lines 36-61) -/

/-- The error kinds of `strconv.Atoi`. -/
inductive AtoiError where
  | invalid
  | outOfRange
  deriving DecidableEq, Repr

/-- The digits of `strconv.Atoi`: the string after one optional sign. -/
def atoiDigits (s : String) : Bool × List Char :=
  match s.data with
  | '-' :: r => (true, r)
  | '+' :: r => (false, r)
  | cs => (false, cs)

/-- The function `strconv.Atoi(s)` (library function, base 10, result type `int` of 64 bits):
an optional sign followed by at least one decimal digit, the value within the
range of `int`; everything else is an error. -/
def Atoi (s : String) : Except AtoiError Int :=
  let (neg, ds) := atoiDigits s
  if ds.isEmpty then .error .invalid
  else if ds.all (fun c => decide ('0' ≤ c ∧ c ≤ '9')) then
    let n : Int := (ds.foldl (fun a c => a * 10 + (c.toNat - '0'.toNat)) 0 : Nat)
    let v : Int := if neg then -n else n
    if v < -(2 : Int) ^ 63 ∨ (2 : Int) ^ 63 - 1 < v then .error .outOfRange else .ok v
  else .error .invalid

/-- The rendering of the error of `strconv.Atoi` for the input `s`; the quoting
of `s` is the one of `strconv.Quote`, kept here for plain printable input. -/
def atoiErrVal (s : String) : AtoiError → ErrVal
  | .invalid => ⟨"strconv.Atoi: parsing \"" ++ s ++ "\": invalid syntax"⟩
  | .outOfRange => ⟨"strconv.Atoi: parsing \"" ++ s ++ "\": value out of range"⟩

/-- What the startup sequence reads from outside the program: the flag `-e`,
the result of `godotenv.Load`, the process environment after it (`os.Getenv`
gives the empty string for a variable that is not set), and the result of
`telebot.NewBot` for a token. -/
structure StartupEnv where
  envFile : String
  loadDefault : Iface
  loadFile : String → Iface
  getenv : String → String
  newBot : String → Iface

/-- The values the startup sequence leaves behind when it does not end the
process. -/
structure Started where
  globals : Globals
  GinMode : String
  BotToken : String
  deriving DecidableEq, Repr

/-- The outcome of lines 36-61 of `main`: the process ended by `log.Fatalln`
in one of the three calls of `CheckErrFatal`, or the program goes on to build
the router and the listener. -/
inductive StartupOutcome where
  | fatal (operands : List String)
  | started (st : Started)
  deriving DecidableEq, Repr

/-- Lines 36-61 of `main`. -/
def startup (env : StartupEnv) : StartupOutcome :=
  let err : Iface := if env.envFile = "" then env.loadDefault else env.loadFile env.envFile
  match CheckErrFatal err ["讀取 .env 錯誤"] with
  | .fatal ops => .fatal ops
  | .returned =>
    let GinMode := env.getenv "GIN_MODE"
    let HOST := env.getenv "HOST"
    let PORT := ":" ++ env.getenv "PORT"
    let BotToken := env.getenv "BOT_TOKEN"
    let parsed := Atoi (env.getenv "CHAT_ID")
    let cahtid : Int := match parsed with
      | .ok n => n
      | .error _ => 0
    let err : Iface := match parsed with
      | .ok _ => none
      | .error k => some (atoiErrVal (env.getenv "CHAT_ID") k)
    match CheckErrFatal err ["Error Type: BOT_TOKEN"] with
    | .fatal ops => .fatal ops
    | .returned =>
      let ChatID := cahtid
      let err : Iface := env.newBot BotToken
      match CheckErrFatal err ["NewBot Error", sprintV err] with
      | .fatal ops => .fatal ops
      | .returned => .started ⟨⟨HOST, PORT, ChatID⟩, GinMode, BotToken⟩

/-- A configuration in which everything but `HOST` and `PORT` is in place. -/
def envNoHostPort : StartupEnv where
  envFile := ""
  loadDefault := none
  loadFile := fun _ => none
  getenv := fun k => if k = "CHAT_ID" then "42" else if k = "BOT_TOKEN" then "t" else ""
  newBot := fun _ => none

/-! ## `AllInput` (lines 220-245) -/

/-- A Go map with string keys, as the list of its entries; a well-formed map
has no key twice.  A `range` loop visits the entries in the order of the list,
which stands for the unspecified order of the Go runtime. -/
abbrev GoMap (α : Type) := List (String × α)

/-- The assignment `m[k] = v`. -/
def GoMap.set {α : Type} (m : GoMap α) (k : String) (v : α) : GoMap α :=
  (k, v) :: m.filter (fun p => p.1 != k)

/-- The keys of a map. -/
def GoMap.keys {α : Type} (m : GoMap α) : List String := m.map Prod.fst

/-- A value of type `interface{}` stored in the map `AllInput` returns: a
`string`, a `[]string`, or any other value the JSON decoder produces (`nil`,
`bool`, `float64`, a slice or a map), of type `J`. -/
inductive Value (J : Type) where
  | str (s : String)
  | strs (vs : List String)
  | json (j : J)
  deriving DecidableEq, Repr

/-- What `AllInput` obtains from the request: the result of `req.ParseForm()`
(on success the map `req.Form`) and then the result of decoding `req.Body`
into `jsonData` (on success the decoded object). -/
structure Request (J : Type) where
  parseForm : Except ErrVal (GoMap (List String))
  decodeBody : Except ErrVal (GoMap (Value J))

/-- The body of the first loop of `AllInput`, lines 228-232. -/
def formEntry {J : Type} (v : GoMap (Value J)) (entry : String × List String) : GoMap (Value J) :=
  if entry.2.length = 1 then v.set entry.1 (.str (entry.2.headD ""))
  else v.set entry.1 (.strs entry.2)

/-- The function `AllInput(req)`, lines 221-245. -/
def AllInput {J : Type} (req : Request J) : GoMap (Value J) :=
  let v : GoMap (Value J) := []
  let v := match req.parseForm with
    | .ok form => form.foldl formEntry v
    | .error _ => v
  let v := match req.decodeBody with
    | .ok jsonData => jsonData.foldl (fun v entry => v.set entry.1 entry.2) v
    | .error _ => v
  v

/-- The form entries `AllInput` reads: `req.Form` when `ParseForm` succeeds. -/
def parsedForm {J : Type} (req : Request J) : GoMap (List String) :=
  match req.parseForm with
  | .ok form => form
  | .error _ => []

/-- The JSON entries `AllInput` reads: the decoded object when decoding succeeds. -/
def decodedJson {J : Type} (req : Request J) : GoMap (Value J) :=
  match req.decodeBody with
  | .ok jsonData => jsonData
  | .error _ => []

/-- The value `AllInput` stores for a form entry alone. -/
def formValue {J : Type} (vs : List String) : Value J :=
  match vs with
  | [x] => .str x
  | _ => .strs vs

/-- A request with a form of three keys and a JSON body of two. -/
def sampleRequest : Request Nat where
  parseForm := .ok [("a", ["1"]), ("b", ["x", "y"]), ("c", [])]
  decodeBody := .ok [("a", .json 7), ("d", .str "z")]

/-! ## The broadcast hub (spec section 4.2)

`main` only obtains the hub from `SocketInit()` and mounts
`BroadcastHandle(wsserver)` on `POST /broadcast` (lines 64 and 91); the two
functions are defined in files of the repository other than `main.go`. -/

/-- Modelled from the spec: a connected client of the hub behind `SocketInit`
(absent from `main.go`): "an open realtime connection handle plus an outbound
message channel", "each client has an independent outbound path with bounded
buffering". -/
structure Client where
  id : Nat
  capacity : Nat
  buffer : List String
  deriving DecidableEq, Repr

/-- Modelled from the spec: the registry of the hub behind `SocketInit`
(absent from `main.go`), "the set of currently connected realtime clients". -/
abbrev Hub := List Client

/-- Modelled from the spec: the identities in the registry (`SocketInit` is
absent from `main.go`). -/
def Hub.ids (h : Hub) : List Nat := h.map Client.id

/-- Modelled from the spec: whether the bounded outbound buffer of a client is
full (`SocketInit` is absent from `main.go`). -/
def Client.full (c : Client) : Bool := decide (c.capacity ≤ c.buffer.length)

/-- Modelled from the spec: `register(client)` of the hub behind `SocketInit`
(absent from `main.go`), "adds a client to the active set". -/
def Hub.register (h : Hub) (c : Client) : Hub :=
  if c.id ∈ h.ids then h else h ++ [c]

/-- Modelled from the spec: `unregister(client)` of the hub behind `SocketInit`
(absent from `main.go`), "removes a client; idempotent". -/
def Hub.unregister (h : Hub) (id : Nat) : Hub :=
  h.filter (fun c => c.id != id)

/-- Modelled from the spec: the delivery of `broadcast(message)` to one client
by the hub that `BroadcastHandle` drives (absent from `main.go`): "if a
client's buffer is full, that client is dropped (unregistered) rather than
stalling the broadcaster". -/
def Client.deliver (msg : String) (c : Client) : Option Client :=
  if c.full then none else some { c with buffer := c.buffer ++ [msg] }

/-- Modelled from the spec: `broadcast(message)` of the hub that
`BroadcastHandle` drives (absent from `main.go`), which "delivers `message` to
every client in the active set at the moment of the call". -/
def Hub.broadcast (h : Hub) (msg : String) : Hub :=
  h.filterMap (Client.deliver msg)

/-- Modelled from the spec: the clients a broadcast attempts delivery to, the
active set at the moment of the call (`BroadcastHandle` is absent from
`main.go`). -/
def Hub.attempts (h : Hub) (msg : String) : List (Nat × String) :=
  h.map (fun c => (c.id, msg))

/-- Modelled from the spec: a client takes the oldest message out of its
outbound buffer (the hub behind `SocketInit` is absent from `main.go`). -/
def Hub.drain (h : Hub) (id : Nat) : Hub :=
  h.map (fun c => if c.id = id then { c with buffer := c.buffer.tail } else c)

/-- Modelled from the spec: the operations on the hub of section 4.2
(`SocketInit` and `BroadcastHandle` are absent from `main.go`). -/
inductive HubOp where
  | register (c : Client)
  | unregister (id : Nat)
  | broadcast (msg : String)
  | drain (id : Nat)
  deriving DecidableEq, Repr

/-- Modelled from the spec: whether an operation registers the client `id`
(`SocketInit` is absent from `main.go`). -/
def HubOp.registers (id : Nat) : HubOp → Bool
  | .register c => c.id == id
  | _ => false

/-- Modelled from the spec: one operation on the hub of section 4.2
(`SocketInit` and `BroadcastHandle` are absent from `main.go`), with the
delivery attempts it makes. -/
def Hub.apply (h : Hub) : HubOp → Hub × List (Nat × String)
  | .register c => (h.register c, [])
  | .unregister id => (h.unregister id, [])
  | .broadcast msg => (h.broadcast msg, h.attempts msg)
  | .drain id => (h.drain id, [])

/-- Modelled from the spec: a sequence of operations on the hub of section 4.2
(`SocketInit` and `BroadcastHandle` are absent from `main.go`), with all the
delivery attempts made. -/
def Hub.run (h : Hub) : List HubOp → Hub × List (Nat × String)
  | [] => (h, [])
  | op :: ops =>
    let r := h.apply op
    let rs := Hub.run r.1 ops
    (rs.1, r.2 ++ rs.2)

/-- A registry of three clients, the second with a full buffer. -/
def sampleHub : Hub :=
  [⟨1, 2, []⟩, ⟨2, 1, ["old"]⟩, ⟨3, 2, ["x"]⟩]

/-! ## The concurrent part of `main` (lines 123-172)

Three tasks run after line 135: the listener task (lines 137-152), the
interrupt task (lines 155-167) and `main` itself, waiting on `exit` (line 170).
They share the variable `err` of `main` (declared at line 41 and assigned, not
redeclared, inside both closures), the channels `sigs` and `exit`, and
`server`.  One step of the model is one statement of one task, an assignment
`err = f()` being the call followed by the store. -/

/-- The signals registered at line 126. -/
inductive Signal where
  | SIGINT
  | SIGTERM
  deriving DecidableEq, Repr

/-- The rendering of a signal by `%v`. -/
def Signal.text : Signal → String
  | .SIGINT => "interrupt"
  | .SIGTERM => "terminated"

/-- A value of the element type `interface{}` of the channel `exit`. -/
inductive ExitVal where
  | nil
  | signal (sig : Signal)
  | error (e : ErrVal)
  deriving DecidableEq, Repr

/-- The rendering of a value received from `exit` by `%v`. -/
def ExitVal.text : ExitVal → String
  | .nil => "<nil>"
  | .signal sig => sig.text
  | .error e => e.rendering

/-- Where the listener task (lines 137-152) stands. -/
inductive LPc where
  | start
  | serving
  | assign (r : Iface)
  | testNil
  | testClosed
  | logError
  | notice
  | sending
  | closeExit
  | done
  deriving DecidableEq, Repr

/-- Where the interrupt task (lines 155-167) stands; `sig` is `receivedSignel`. -/
inductive IPc where
  | start
  | waitSignal
  | closing (sig : Signal)
  | assign (sig : Signal) (r : Iface)
  | notice (sig : Signal)
  | sending (sig : Signal)
  | sendExit (sig : Signal)
  | done (sig : Signal)
  deriving DecidableEq, Repr

/-- Where `main` stands from line 170 on. -/
inductive MPc where
  | waiting
  | logging (v : ExitVal)
  | returned (v : ExitVal)
  deriving DecidableEq, Repr

/-- The state shared by the three tasks.  The last five fields only count
what has been executed: the calls of `server.Close`, the calls of
`NoticeSystemManager` by the listener task and by the interrupt task, and the
returns of `Bot.SendMessage` to each of them.  `outbox` holds every call of
`Bot.SendMessage` and `logs` every line handed to `log`. -/
structure State where
  err : Iface
  sigs : List Signal
  serverClosed : Bool
  exitClosed : Bool
  L : LPc
  I : IPc
  M : MPc
  panicked : Bool
  outbox : List Sent
  logs : List String
  closeCalls : Nat
  lNoticeCalls : Nat
  iNoticeCalls : Nat
  lSendReturns : Nat
  iSendReturns : Nat
  deriving DecidableEq, Repr

/-- The state after line 135: `err` is nil (the last `CheckErrFatal` has
returned), `sigs` and `exit` are empty and open, no task has run. -/
def State.init : State where
  err := none
  sigs := []
  serverClosed := false
  exitClosed := false
  L := .start
  I := .start
  M := .waiting
  panicked := false
  outbox := []
  logs := []
  closeCalls := 0
  lNoticeCalls := 0
  iNoticeCalls := 0
  lSendReturns := 0
  iSendReturns := 0

/-- The calls of `NoticeSystemManager` executed so far, by either task. -/
def State.noticeCalls (s : State) : Nat := s.lNoticeCalls + s.iNoticeCalls

/-- Whether `main` has returned, which ends the process. -/
def MPc.isReturned : MPc → Bool
  | .returned _ => true
  | _ => false

/-- Whether `main` no longer waits on `exit`. -/
def MPc.released : MPc → Bool
  | .waiting => false
  | _ => true

/-- The process has ended: `main` has returned or a task has panicked. -/
def State.halted (s : State) : Bool := s.panicked || s.M.isReturned

/-- One step of one task, or of what surrounds them. -/
inductive Event where
  /-- The operating system delivers a signal; `signal.Notify` drops it when the
  buffer of `sigs` (capacity 1) is full. -/
  | osSignal (sig : Signal)
  /-- A request handler of `/socket-demo` stores the result of `pusher.Push`
  into `err` (lines 95 and 99). -/
  | handlerPush (r : Iface)
  /-- Lines 139-140: the log line and the detached startup message. -/
  | lStart
  /-- Line 141: `server.ListenAndServe()` returns `r`. -/
  | lServeReturn (r : Iface)
  /-- Line 141: the store into `err`. -/
  | lAssign
  /-- Line 145. -/
  | lTestNil
  /-- Line 146. -/
  | lTestClosed
  /-- Line 147. -/
  | lLog
  /-- Line 148 up to the call of `Bot.SendMessage` at line 192. -/
  | lNotice
  /-- Line 192: `Bot.SendMessage` returns to the listener task. -/
  | lSendReturn
  /-- Line 149. -/
  | lCloseExit
  /-- Line 156. -/
  | iStart
  /-- Line 158. -/
  | iReceive
  /-- Line 161: `server.Close()` is called and returns `r`. -/
  | iClose (r : Iface)
  /-- Line 161: the store into `err`. -/
  | iAssign
  /-- Line 163 up to the call of `Bot.SendMessage` at line 192. -/
  | iNotice
  /-- Line 192: `Bot.SendMessage` returns to the interrupt task. -/
  | iSendReturn
  /-- Line 166: the send on `exit`, received by `main` at line 170, or the
  panic of a send on a closed channel. -/
  | iSendExit
  /-- Line 170: `main` receives the zero value from the closed `exit`. -/
  | mReceiveClosed
  /-- Lines 170-172: `main` logs and returns. -/
  | mLogReturn
  deriving DecidableEq, Repr

/-- One step from the state `s`; `none` when the event cannot happen there. -/
def step (g : Globals) (s : State) (e : Event) : Option State :=
  if s.halted then none else
  match e with
  | .osSignal sig =>
    some (if s.sigs.length < 1 then { s with sigs := s.sigs ++ [sig] } else s)
  | .handlerPush r => some { s with err := r }
  | .lStart =>
    match s.L with
    | .start => some { s with
        L := .serving
        logs := s.logs ++ ["Server Listening on  " ++ (g.HOST ++ g.PORT)]
        outbox := s.outbox ++ [⟨g.AdminChat, g.HOST ++ g.PORT ++ " 伺服器開啟了!"⟩] }
    | _ => none
  | .lServeReturn r =>
    match s.L with
    | .serving =>
      if sprintV r = serverClosedText ∧ s.serverClosed = false then none
      else some { s with L := .assign r }
    | _ => none
  | .lAssign =>
    match s.L with
    | .assign r => some { s with L := .testNil, err := r }
    | _ => none
  | .lTestNil =>
    match s.L with
    | .testNil => some { s with L := if s.err ≠ none then .testClosed else .done }
    | _ => none
  | .lTestClosed =>
    match s.L with
    | .testClosed =>
      some { s with L := if sprintV s.err ≠ serverClosedText then .logError else .done }
    | _ => none
  | .lLog =>
    match s.L with
    | .logError => some { s with L := .notice, logs := s.logs ++ ["Server Error " ++ sprintV s.err] }
    | _ => none
  | .lNotice =>
    match s.L with
    | .notice => some { s with
        L := .sending
        outbox := NoticeSystemManager g s.err s.outbox
        lNoticeCalls := s.lNoticeCalls + 1 }
    | _ => none
  | .lSendReturn =>
    match s.L with
    | .sending => some { s with L := .closeExit, lSendReturns := s.lSendReturns + 1 }
    | _ => none
  | .lCloseExit =>
    match s.L with
    | .closeExit =>
      if s.exitClosed then some { s with panicked := true }
      else some { s with L := .done, exitClosed := true }
    | _ => none
  | .iStart =>
    match s.I with
    | .start => some { s with I := .waitSignal, logs := s.logs ++ ["結束程式請按 [Ctrl + C]"] }
    | _ => none
  | .iReceive =>
    match s.I, s.sigs with
    | .waitSignal, sig :: rest => some { s with I := .closing sig, sigs := rest }
    | _, _ => none
  | .iClose r =>
    match s.I with
    | .closing sig => some { s with
        I := .assign sig r
        serverClosed := true
        closeCalls := s.closeCalls + 1 }
    | _ => none
  | .iAssign =>
    match s.I with
    | .assign sig r => some { s with I := .notice sig, err := r }
    | _ => none
  | .iNotice =>
    match s.I with
    | .notice sig => some { s with
        I := .sending sig
        outbox := NoticeSystemManager g s.err s.outbox
        iNoticeCalls := s.iNoticeCalls + 1 }
    | _ => none
  | .iSendReturn =>
    match s.I with
    | .sending sig => some { s with I := .sendExit sig, iSendReturns := s.iSendReturns + 1 }
    | _ => none
  | .iSendExit =>
    match s.I with
    | .sendExit sig =>
      if s.exitClosed then some { s with panicked := true }
      else
        match s.M with
        | .waiting => some { s with I := .done sig, M := .logging (.signal sig) }
        | _ => none
    | _ => none
  | .mReceiveClosed =>
    match s.M with
    | .waiting => if s.exitClosed then some { s with M := .logging .nil } else none
    | _ => none
  | .mLogReturn =>
    match s.M with
    | .logging v => some { s with
        M := .returned v
        logs := s.logs ++ ["\nSignal: " ++ v.text, "程式結束"] }
    | _ => none

/-- The state after a sequence of events, when each can happen in turn. -/
def run (g : Globals) (s : State) : List Event → Option State
  | [] => some s
  | e :: es =>
    match step g s e with
    | some s' => run g s' es
    | none => none

/-- The states the three tasks can reach from the state after line 135. -/
inductive Reachable (g : Globals) : State → Prop where
  | init : Reachable g State.init
  | step {s s' : State} (e : Event) (hs : Reachable g s) (he : step g s e = some s') :
      Reachable g s'

/-- The globals of the sample runs. -/
def sampleGlobals : Globals := ⟨"localhost", ":8080", 42⟩

/-- A fatal error of the listener: the port is taken. -/
def bindError : ErrVal := ⟨"listen tcp :8080: bind: address already in use"⟩

/-- An error of `server.Close`. -/
def closeError : ErrVal := ⟨"close tcp [::]:8080: use of closed network connection"⟩

/-- A run with a fatal listener error and no interrupt. -/
def runListenerFatal : List Event :=
  [.lStart, .iStart, .lServeReturn (some bindError), .lAssign, .lTestNil, .lTestClosed, .lLog,
    .lNotice, .lSendReturn, .lCloseExit, .mReceiveClosed, .mLogReturn]

/-- A run with a fatal listener error followed by an interrupt, `main` not yet
scheduled when the interrupt task reaches its send. -/
def runFatalThenInterrupt : List Event :=
  [.lStart, .iStart, .lServeReturn (some bindError), .lAssign, .lTestNil, .lTestClosed, .lLog,
    .lNotice, .lSendReturn, .lCloseExit, .osSignal .SIGINT, .iReceive, .iClose none, .iAssign,
    .iNotice, .iSendReturn, .iSendExit]

/-- A run with an interrupt only, in which `server.Close` returns an error and
its store into `err` falls between the store and the test of the listener
task. -/
def runInterruptCloseError : List Event :=
  [.lStart, .iStart, .osSignal .SIGINT, .iReceive, .iClose (some closeError),
    .lServeReturn (some errServerClosed), .lAssign, .iAssign, .lTestNil, .lTestClosed, .lLog,
    .lNotice, .iNotice, .lSendReturn, .iSendReturn, .lCloseExit, .iSendExit]

/-- A run with an interrupt only, in which `server.Close` returns `r` and the
store of the listener task falls between the store and the call of
`NoticeSystemManager` of the interrupt task. -/
def runInterruptOverwritten (r : Iface) : List Event :=
  [.lStart, .iStart, .osSignal .SIGINT, .iReceive, .iClose r, .iAssign,
    .lServeReturn (some errServerClosed), .lAssign, .iNotice, .lTestNil, .lTestClosed,
    .iSendReturn, .iSendExit, .mLogReturn]

/-- A run with an interrupt only, up to the call of `Bot.SendMessage` by the
interrupt task. -/
def runInterruptBlocked : List Event :=
  [.lStart, .iStart, .osSignal .SIGINT, .iReceive, .iClose none, .iAssign, .iNotice]

/-- The state a sample run ends in. -/
def finalState (es : List Event) : State :=
  (run sampleGlobals State.init es).getD State.init

/-- A run with an interrupt only and each task running its statements without
the other in between. -/
def runInterruptOnly : List Event :=
  [.lStart, .iStart, .osSignal .SIGTERM, .iReceive, .iClose none, .iAssign,
    .lServeReturn (some errServerClosed), .lAssign, .lTestNil, .lTestClosed,
    .iNotice, .iSendReturn, .iSendExit, .mLogReturn]

/-- Calls of `server.Close` the interrupt task has made when it stands at a
place: one from line 161 on. -/
def IPc.closes : IPc → Nat
  | .start | .waitSignal | .closing _ => 0
  | _ => 1

/-- Calls of `NoticeSystemManager` the interrupt task has made when it stands
at a place: one from line 163 on. -/
def IPc.notices : IPc → Nat
  | .sending _ | .sendExit _ | .done _ => 1
  | _ => 0

/-- Returns of `Bot.SendMessage` to the interrupt task when it stands at a
place: one from line 166 on. -/
def IPc.sendReturns : IPc → Nat
  | .sendExit _ | .done _ => 1
  | _ => 0

/-- Calls of `NoticeSystemManager` the listener task has made: one when it
stands at line 192 or 149 or has closed `exit`. -/
def State.listenerNotices (s : State) : Nat :=
  if s.exitClosed then 1 else
  match s.L with
  | .sending | .closeExit => 1
  | _ => 0

/-- Returns of `Bot.SendMessage` to the listener task: one when it stands at
line 149 or has closed `exit`. -/
def State.listenerSendReturns (s : State) : Nat :=
  if s.exitClosed then 1 else
  match s.L with
  | .closeExit => 1
  | _ => 0

/-- Whether the listener task has passed its `log.Println` of line 147. -/
def State.listenerLogged (s : State) : Bool :=
  s.exitClosed ||
  match s.L with
  | .notice | .sending | .closeExit => true
  | _ => false

/-- What `main` has received from `exit`, if anything. -/
def MPc.got : MPc → Option ExitVal
  | .waiting => none
  | .logging v => some v
  | .returned v => some v

/-- The bookkeeping that ties the counters, the log and the value `main`
received to the places where the tasks stand. -/
structure Inv (s : State) : Prop where
  closed_done : s.exitClosed = true → s.L = .done
  closes : s.closeCalls = s.I.closes
  lnotices : s.lNoticeCalls = s.listenerNotices
  inotices : s.iNoticeCalls = s.I.notices
  lreturns : s.lSendReturns = s.listenerSendReturns
  ireturns : s.iSendReturns = s.I.sendReturns
  logged : s.listenerLogged = true → ∃ t, ("Server Error " ++ t) ∈ s.logs
  got : ∀ v, s.M.got = some v →
    (v = .nil ∧ s.exitClosed = true) ∨ (∃ sig, v = .signal sig ∧ s.I = .done sig)

/-- No event is a return of `Bot.SendMessage` to a task of the shutdown. -/
def noSendReturn (es : List Event) : Bool :=
  es.all (fun e => e != .lSendReturn && e != .iSendReturn)

/-! # Theorems -/

theorem noticeMessage_eq (g : Globals) (err : Iface) :
    noticeMessage g err = g.HOST ++ g.PORT ++ " 伺服器關閉了!  " ++ noticeSuffix err := by
  cases err <;> rfl

/-- C3: for every cause `err`, `NoticeSystemManager` adds exactly one message
to the calls of `Bot.SendMessage`, addressed to `AdminChat`, whose text is
`HOST ++ PORT ++ " 伺服器關閉了!  " ++ suffix` with the suffix `"(" ++ %v ++ ")"`
for a non-nil cause and `"(手動關閉)"` for nil; the text starts with `HOST ++ PORT`
and, for a non-nil cause, contains its rendering. -/
theorem C3_notice_message (g : Globals) (err : Iface) (outbox : List Sent) :
    NoticeSystemManager g err outbox
        = outbox ++ [⟨g.AdminChat, g.HOST ++ g.PORT ++ " 伺服器關閉了!  " ++ noticeSuffix err⟩]
      ∧ noticeSuffix none = "(手動關閉)"
      ∧ (∀ e : ErrVal, noticeSuffix (some e) = "(" ++ sprintV (some e) ++ ")")
      ∧ (g.HOST ++ g.PORT).data <+: (noticeMessage g err).data
      ∧ (∀ e : ErrVal, (sprintV (some e)).data <:+: (noticeMessage g (some e)).data) := by
  refine ⟨?_, rfl, fun _ => rfl, ?_, ?_⟩
  · simp [NoticeSystemManager, noticeMessage_eq]
  · rw [noticeMessage_eq]
    exact ⟨(" 伺服器關閉了!  " ++ noticeSuffix err).data, by
      simp [String.data_append, List.append_assoc]⟩
  · intro e
    simp only [noticeMessage, sprintV, String.data_append]
    refine ⟨(g.HOST ++ g.PORT ++ " 伺服器關閉了!  ").data ++ "(".data, ")".data, ?_⟩
    simp [String.data_append, List.append_assoc]

/-- The function `CheckErrFatal` ends the process exactly when its `err` is non-nil. -/
theorem CheckErrFatal_fatal_iff (err : Iface) (msg : List String) :
    (∃ ops, CheckErrFatal err msg = .fatal ops) ↔ err ≠ none := by
  cases err with
  | none => simp [CheckErrFatal]
  | some e =>
    simp only [CheckErrFatal]
    split <;> simp

theorem CheckErrFatal_none (msg : List String) : CheckErrFatal none msg = .returned := rfl

theorem CheckErrFatal_some (e : ErrVal) (msg : List String) :
    ∃ ops, CheckErrFatal (some e) msg = .fatal ops :=
  (CheckErrFatal_fatal_iff (some e) msg).2 (by simp)

/-- The outcome of `startup` as a function of the three checked results. -/
theorem startup_started_iff (env : StartupEnv) :
    (∃ st, startup env = .started st) ↔
      (if env.envFile = "" then env.loadDefault else env.loadFile env.envFile) = none
        ∧ (∃ n, Atoi (env.getenv "CHAT_ID") = .ok n)
        ∧ env.newBot (env.getenv "BOT_TOKEN") = none := by
  unfold startup
  cases h1 : (if env.envFile = "" then env.loadDefault else env.loadFile env.envFile) with
  | some e =>
    obtain ⟨ops, hops⟩ := CheckErrFatal_some e ["讀取 .env 錯誤"]
    simp [hops]
  | none =>
    simp only [CheckErrFatal_none, true_and]
    cases h2 : Atoi (env.getenv "CHAT_ID") with
    | error k =>
      obtain ⟨ops, hops⟩ := CheckErrFatal_some (atoiErrVal (env.getenv "CHAT_ID") k)
        ["Error Type: BOT_TOKEN"]
      simp [hops]
    | ok n =>
      simp only [CheckErrFatal_none]
      cases h3 : env.newBot (env.getenv "BOT_TOKEN") with
      | some e =>
        obtain ⟨ops, hops⟩ := CheckErrFatal_some e ["NewBot Error", sprintV (some e)]
        simp [hops]
      | none => simp [CheckErrFatal_none]


/-! ### Go maps -/

theorem GoMap.lookup_filter_ne {α : Type} (m : GoMap α) (k k' : String) (h : k' ≠ k) :
    List.lookup k' (m.filter (fun p => p.1 != k)) = List.lookup k' m := by
  induction m with
  | nil => rfl
  | cons p m ih =>
    obtain ⟨a, b⟩ := p
    by_cases hak : a = k
    · subst hak
      have h1 : (k' == a) = false := by simpa using h
      simp [List.filter_cons, List.lookup_cons, h1, ih]
    · have h2 : (a != k) = true := by simpa using hak
      simp only [List.filter_cons, h2, if_true, List.lookup_cons, ih]

theorem GoMap.lookup_set {α : Type} (m : GoMap α) (k k' : String) (v : α) :
    List.lookup k' (m.set k v) = if k' = k then some v else List.lookup k' m := by
  unfold GoMap.set
  by_cases h : k' = k
  · subst h
    simp [List.lookup_cons]
  · have h1 : (k' == k) = false := by simpa using h
    simp [List.lookup_cons, h1, h, GoMap.lookup_filter_ne m k k' h]

theorem GoMap.mem_keys_set {α : Type} (m : GoMap α) (k k' : String) (v : α) :
    k' ∈ (m.set k v).keys ↔ k' = k ∨ k' ∈ m.keys := by
  unfold GoMap.set GoMap.keys
  simp only [List.map_cons, List.mem_cons, List.mem_map, List.mem_filter]
  constructor
  · rintro (h | ⟨p, ⟨hp, -⟩, rfl⟩)
    · exact Or.inl h
    · exact Or.inr ⟨p, hp, rfl⟩
  · rintro (h | ⟨p, hp, rfl⟩)
    · exact Or.inl h
    · by_cases hk : p.1 = k
      · exact Or.inl hk
      · exact Or.inr ⟨p, ⟨hp, by simpa using hk⟩, rfl⟩

theorem GoMap.nodup_keys_set {α : Type} (m : GoMap α) (k : String) (v : α)
    (h : m.keys.Nodup) : (m.set k v).keys.Nodup := by
  unfold GoMap.set GoMap.keys at *
  rw [List.map_cons, List.nodup_cons]
  constructor
  · simp [List.mem_map, List.mem_filter]
  · exact (List.filter_sublist m).map Prod.fst |>.nodup h

/-- The loop `for key, value := range l { v[key] = g(value) }`. -/
theorem GoMap.mem_keys_foldl {α β : Type} (g : β → α) (l : GoMap β) (v0 : GoMap α) (k : String) :
    k ∈ (l.foldl (fun v e => GoMap.set v e.1 (g e.2)) v0).keys ↔ k ∈ l.keys ∨ k ∈ v0.keys := by
  induction l generalizing v0 with
  | nil => simp [GoMap.keys]
  | cons p l ih =>
    rw [List.foldl_cons, ih, GoMap.mem_keys_set]
    simp only [GoMap.keys, List.map_cons, List.mem_cons]
    tauto

theorem GoMap.nodup_keys_foldl {α β : Type} (g : β → α) (l : GoMap β) (v0 : GoMap α)
    (h : v0.keys.Nodup) : (l.foldl (fun v e => GoMap.set v e.1 (g e.2)) v0).keys.Nodup := by
  induction l generalizing v0 with
  | nil => simpa using h
  | cons p l ih =>
    rw [List.foldl_cons]
    exact ih _ (GoMap.nodup_keys_set v0 p.1 (g p.2) h)

theorem GoMap.lookup_eq_none_of_not_mem {β : Type} (l : GoMap β) (k : String)
    (h : k ∉ l.keys) : List.lookup k l = none := by
  induction l with
  | nil => rfl
  | cons p l ih =>
    obtain ⟨a, b⟩ := p
    simp only [GoMap.keys, List.map_cons, List.mem_cons, not_or] at h
    have h1 : (k == a) = false := by simpa using h.1
    simp only [List.lookup_cons, h1]
    exact ih h.2

theorem GoMap.lookup_foldl {α β : Type} (g : β → α) (l : GoMap β) (v0 : GoMap α) (k : String)
    (hl : l.keys.Nodup) :
    List.lookup k (l.foldl (fun v e => GoMap.set v e.1 (g e.2)) v0)
      = match List.lookup k l with
        | some x => some (g x)
        | none => List.lookup k v0 := by
  induction l generalizing v0 with
  | nil => rfl
  | cons p l ih =>
    obtain ⟨a, b⟩ := p
    simp only [GoMap.keys, List.map_cons, List.nodup_cons] at hl
    rw [List.foldl_cons, ih _ hl.2]
    by_cases hka : k = a
    · subst hka
      have hnone : List.lookup k l = none := GoMap.lookup_eq_none_of_not_mem l k hl.1
      simp [hnone, List.lookup_cons, GoMap.lookup_set]
    · have h1 : (k == a) = false := by simpa using hka
      simp only [List.lookup_cons, h1, GoMap.lookup_set, hka, if_false]

theorem formEntry_eq {J : Type} (v : GoMap (Value J)) (entry : String × List String) :
    formEntry v entry = v.set entry.1 (formValue entry.2) := by
  obtain ⟨k, vs⟩ := entry
  unfold formEntry formValue
  match vs with
  | [] => simp
  | [x] => simp
  | x :: y :: r => simp

theorem AllInput_eq {J : Type} (req : Request J) :
    AllInput req = (decodedJson req).foldl (fun v e => GoMap.set v e.1 (id e.2))
      ((parsedForm req).foldl (fun v e => GoMap.set v e.1 (formValue e.2)) []) := by
  have hf : (formEntry : GoMap (Value J) → String × List String → GoMap (Value J))
      = fun v e => GoMap.set v e.1 (formValue e.2) := by
    funext v e
    exact formEntry_eq v e
  unfold AllInput parsedForm decodedJson
  rw [hf]
  cases req.parseForm <;> cases req.decodeBody <;> rfl

/-- C9: for a request whose form and decoded JSON object are maps (no key
twice), the map `AllInput` returns has as keys exactly the parsed form keys
together with the keys of the decoded JSON object, each once; a key of the JSON
object maps to its JSON value, also when the form has it; a key only in the
form maps to the single string when it has exactly one value and to the whole
list otherwise; when neither source parses the map is empty. -/
theorem C9_AllInput_contents {J : Type} (req : Request J)
    (hform : (parsedForm req).keys.Nodup) (hjson : (decodedJson req).keys.Nodup) :
    (∀ k, k ∈ (AllInput req).keys ↔ k ∈ (parsedForm req).keys ∨ k ∈ (decodedJson req).keys)
      ∧ (AllInput req).keys.Nodup
      ∧ (∀ k j, List.lookup k (decodedJson req) = some j → List.lookup k (AllInput req) = some j)
      ∧ (∀ k x, List.lookup k (decodedJson req) = none → List.lookup k (parsedForm req) = some [x]
          → List.lookup k (AllInput req) = some (.str x))
      ∧ (∀ k vs, List.lookup k (decodedJson req) = none → List.lookup k (parsedForm req) = some vs
          → vs.length ≠ 1 → List.lookup k (AllInput req) = some (.strs vs))
      ∧ ((∀ form, req.parseForm ≠ .ok form) → (∀ obj, req.decodeBody ≠ .ok obj)
          → AllInput req = []) := by
  have hlook : ∀ k, List.lookup k (AllInput req)
      = match List.lookup k (decodedJson req) with
        | some j => some j
        | none => match List.lookup k (parsedForm req) with
          | some vs => some (formValue vs)
          | none => none := by
    intro k
    rw [AllInput_eq, GoMap.lookup_foldl id _ _ k hjson, GoMap.lookup_foldl formValue _ _ k hform]
    cases List.lookup k (decodedJson req) <;> cases List.lookup k (parsedForm req) <;> rfl
  refine ⟨?_, ?_, ?_, ?_, ?_, ?_⟩
  · intro k
    rw [AllInput_eq, GoMap.mem_keys_foldl, GoMap.mem_keys_foldl]
    simp only [GoMap.keys, List.map_nil, List.not_mem_nil, or_false]
    exact or_comm
  · rw [AllInput_eq]
    exact GoMap.nodup_keys_foldl id _ _ (GoMap.nodup_keys_foldl formValue _ _ List.nodup_nil)
  · intro k j hj
    rw [hlook, hj]
  · intro k x hj hf
    rw [hlook, hj, hf]
    rfl
  · intro k vs hj hf hlen
    rw [hlook, hj, hf]
    match vs, hlen with
    | [], _ => rfl
    | [x], h => exact absurd rfl h
    | x :: y :: r, _ => rfl
  · intro hf hj
    unfold AllInput
    cases h1 : req.parseForm with
    | ok form => exact absurd h1 (hf form)
    | error e =>
      cases h2 : req.decodeBody with
      | ok obj => exact absurd h2 (hj obj)
      | error e2 => rfl

/-- C9 on a request with a form of three keys and a JSON body of two: the
JSON value wins for the key both have. -/
theorem C9_AllInput_contents_witness :
    (parsedForm sampleRequest).keys.Nodup ∧ (decodedJson sampleRequest).keys.Nodup
      ∧ List.lookup "a" (AllInput sampleRequest) = some (.json 7) :=
  ⟨by decide, by decide,
    (C9_AllInput_contents sampleRequest (by decide) (by decide)).2.2.1 "a" (.json 7) (by decide)⟩

/-- C7 as stated fails: with `HOST` and `PORT` not set and the other settings
in place, the startup sequence ends no process and goes on with `HOST = ""` and
`PORT = ":"`. -/
theorem C7_missing_host_port_not_fatal :
    envNoHostPort.getenv "HOST" = "" ∧ envNoHostPort.getenv "PORT" = ""
      ∧ startup envNoHostPort = .started ⟨⟨"", ":", 42⟩, "", "t"⟩ := by
  decide

/-- C7, amended: `CheckErrFatal` ends the process exactly when its `err` is
non-nil; the startup sequence ends the process exactly when loading the env
file fails, `CHAT_ID` is not accepted by `strconv.Atoi` (a `CHAT_ID` that is
not set is not accepted), or `telebot.NewBot` fails; otherwise it goes on with
`HOST` and `PORT` taken unchecked from the environment. -/
theorem C7_startup_fatal_iff (env : StartupEnv) :
    (∀ (err : Iface) (msg : List String),
        (∃ ops, CheckErrFatal err msg = .fatal ops) ↔ err ≠ none)
      ∧ ((∃ ops, startup env = .fatal ops) ↔
          ((if env.envFile = "" then env.loadDefault else env.loadFile env.envFile) ≠ none
            ∨ (∀ n, Atoi (env.getenv "CHAT_ID") ≠ .ok n)
            ∨ env.newBot (env.getenv "BOT_TOKEN") ≠ none))
      ∧ Atoi "" = .error .invalid
      ∧ (∀ st, startup env = .started st →
          st.globals.HOST = env.getenv "HOST" ∧ st.globals.PORT = ":" ++ env.getenv "PORT") := by
  refine ⟨CheckErrFatal_fatal_iff, ?_, rfl, ?_⟩
  · have hs := startup_started_iff env
    have hdich : (∃ ops, startup env = .fatal ops) ↔ ¬ ∃ st, startup env = .started st := by
      cases startup env <;> simp
    rw [hdich, hs]
    simp only [not_and_or, not_exists]
  · intro st hst
    simp only [startup] at hst
    repeat' split at hst
    all_goals first
      | (cases hst; exact ⟨rfl, rfl⟩)
      | cases hst

/-! ### The broadcast hub -/

theorem Client.deliver_id {msg : String} {c c' : Client} (h : c.deliver msg = some c') :
    c'.id = c.id := by
  unfold Client.deliver at h
  split at h
  · cases h
  · cases h
    rfl

theorem Hub.mem_ids_broadcast {h : Hub} {msg : String} {n : Nat}
    (hn : n ∈ (h.broadcast msg).ids) : ∃ c ∈ h, c.id = n ∧ c.full = false := by
  unfold Hub.ids Hub.broadcast at hn
  simp only [List.mem_map, List.mem_filterMap] at hn
  obtain ⟨c', ⟨c, hc, hd⟩, rfl⟩ := hn
  refine ⟨c, hc, (Client.deliver_id hd).symm, ?_⟩
  unfold Client.deliver at hd
  split at hd
  · cases hd
  · simpa using ‹¬ c.full = true›

theorem Hub.not_mem_ids_apply {h : Hub} {op : HubOp} {n : Nat} (hn : n ∉ h.ids)
    (hop : op.registers n = false) : n ∉ (h.apply op).1.ids := by
  cases op with
  | register c =>
    simp only [HubOp.registers, beq_eq_false_iff_ne, ne_eq] at hop
    simp only [Hub.apply, Hub.register]
    split
    · exact hn
    · intro hmem
      simp only [Hub.ids, List.map_append, List.map_cons, List.map_nil, List.mem_append,
        List.mem_singleton] at hmem
      rcases hmem with hmem | hmem
      · exact hn hmem
      · exact hop hmem.symm
  | unregister id =>
    intro hmem
    apply hn
    simp only [Hub.apply, Hub.unregister, Hub.ids, List.mem_map, List.mem_filter] at hmem ⊢
    obtain ⟨c, ⟨hc, -⟩, rfl⟩ := hmem
    exact ⟨c, hc, rfl⟩
  | broadcast msg =>
    intro hmem
    obtain ⟨c, hc, rfl, -⟩ := Hub.mem_ids_broadcast hmem
    exact hn (List.mem_map_of_mem _ hc)
  | drain id =>
    intro hmem
    apply hn
    simp only [Hub.apply, Hub.drain, Hub.ids, List.mem_map] at hmem ⊢
    obtain ⟨c', ⟨c, hc, rfl⟩, rfl⟩ := hmem
    refine ⟨c, hc, ?_⟩
    split <;> rfl

theorem Hub.no_attempt_apply {h : Hub} {op : HubOp} {n : Nat} (hn : n ∉ h.ids) (msg : String) :
    (n, msg) ∉ (h.apply op).2 := by
  cases op with
  | broadcast m =>
    intro hmem
    simp only [Hub.apply, Hub.attempts, List.mem_map, Prod.mk.injEq] at hmem
    obtain ⟨c, hc, rfl, -⟩ := hmem
    exact hn (List.mem_map_of_mem _ hc)
  | register c => simp [Hub.apply]
  | unregister id => simp [Hub.apply]
  | drain id => simp [Hub.apply]

theorem Hub.no_attempt_run (ops : List HubOp) (h : Hub) (n : Nat) (hn : n ∉ h.ids)
    (hops : ∀ op ∈ ops, op.registers n = false) (msg : String) :
    (n, msg) ∉ (h.run ops).2 ∧ n ∉ (h.run ops).1.ids := by
  induction ops generalizing h with
  | nil => exact ⟨by simp [Hub.run], hn⟩
  | cons op ops ih =>
    have hop := hops op (List.mem_cons_self _ _)
    have hrest : ∀ o ∈ ops, o.registers n = false :=
      fun o ho => hops o (List.mem_cons_of_mem _ ho)
    have h1 := ih (h.apply op).1 (Hub.not_mem_ids_apply hn hop) hrest
    simp only [Hub.run, List.mem_append, not_or]
    exact ⟨⟨Hub.no_attempt_apply hn msg, h1.1⟩, h1.2⟩

/-- C8: in a registry without a repeated identity, a broadcast removes a
client whose outbound buffer is full; whatever operations follow, as long as
none registers that client again, no later broadcast attempts delivery to it;
and every registered client whose buffer is not full stays registered with the
message appended to its buffer. -/
theorem C8_broadcast_drops_full_client (h : Hub) (msg : String) (c : Client)
    (hnodup : h.ids.Nodup) (hc : c ∈ h) (hfull : c.full = true) :
    c.id ∉ (h.broadcast msg).ids
      ∧ (∀ (ops : List HubOp) (later : String), (∀ op ∈ ops, op.registers c.id = false) →
          (c.id, later) ∉ ((h.broadcast msg).run ops).2
            ∧ c.id ∉ ((h.broadcast msg).run ops).1.ids)
      ∧ (∀ c' ∈ h, c'.full = false →
          ({ c' with buffer := c'.buffer ++ [msg] } : Client) ∈ h.broadcast msg) := by
  have hgone : c.id ∉ (h.broadcast msg).ids := by
    intro hmem
    obtain ⟨d, hd, hid, hdfull⟩ := Hub.mem_ids_broadcast hmem
    have hdc : d = c := List.inj_on_of_nodup_map hnodup hd hc hid
    rw [hdc, hfull] at hdfull
    cases hdfull
  refine ⟨hgone, ?_, ?_⟩
  · intro ops later hops
    exact Hub.no_attempt_run ops _ c.id hgone hops later
  · intro c' hc' hnot
    unfold Hub.broadcast
    rw [List.mem_filterMap]
    exact ⟨c', hc', by simp [Client.deliver, hnot]⟩

/-- C8 on a registry of three clients whose second has a full buffer: after
the broadcast and a later one, the second client is gone and was not tried
again, and the first holds the message. -/
theorem C8_broadcast_drops_full_client_witness :
    sampleHub.ids.Nodup ∧ (⟨2, 1, ["old"]⟩ : Client) ∈ sampleHub
      ∧ (2, "again") ∉ ((sampleHub.broadcast "hello").run [.drain 3, .broadcast "again"]).2
      ∧ (⟨1, 2, ["hello"]⟩ : Client) ∈ sampleHub.broadcast "hello" := by
  have h := C8_broadcast_drops_full_client sampleHub "hello" ⟨2, 1, ["old"]⟩
    (by decide) (by decide) (by decide)
  exact ⟨by decide, by decide,
    (h.2.1 [.drain 3, .broadcast "again"] "again" (by decide)).1,
    h.2.2 ⟨1, 2, []⟩ (by decide) (by decide)⟩


/-! ### The three tasks -/

/-- The invariant holds in the state after line 135. -/
theorem inv_init : Inv State.init where
  closed_done := by simp [State.init]
  closes := rfl
  lnotices := rfl
  inotices := rfl
  lreturns := rfl
  ireturns := rfl
  logged := by simp [State.init, State.listenerLogged]
  got := by simp [State.init, MPc.got]

set_option maxHeartbeats 4000000 in
/-- Every step keeps the invariant. -/
theorem inv_step {g : Globals} {s s' : State} {e : Event} (hinv : Inv s)
    (he : step g s e = some s') : Inv s' := by
  obtain ⟨h1, h2, h3, h4, h5, h6, h7, h8⟩ := hinv
  unfold GinGraphql.step at he
  split at he
  · cases he
  · cases e <;> simp only at he <;> repeat' split at he
    all_goals cases he
    all_goals constructor <;>
      simp_all [State.listenerNotices, State.listenerSendReturns, State.listenerLogged,
        IPc.closes, IPc.notices, IPc.sendReturns, MPc.got]
    all_goals first
      | omega
      | exact ⟨_, Or.inr rfl⟩
      | (intro v hv
         first
           | exact (h8 v hv).1
           | exact h8 v hv)
      | (intro h
         obtain ⟨t, ht⟩ := h7 h
         exact ⟨t, Or.inl ht⟩)

/-- Every reachable state satisfies the bookkeeping invariant. -/
theorem reachable_inv {g : Globals} {s : State} (h : Reachable g s) : Inv s := by
  induction h with
  | init => exact inv_init
  | step e _ he ih => exact inv_step ih he

/-- A run from a reachable state ends in a reachable state. -/
theorem reachable_run {g : Globals} {s s' : State} (es : List Event) (h : Reachable g s)
    (hr : run g s es = some s') : Reachable g s' := by
  induction es generalizing s with
  | nil =>
    simp only [GinGraphql.run, Option.some.injEq] at hr
    exact hr ▸ h
  | cons e es ih =>
    simp only [GinGraphql.run] at hr
    cases hstep : step g s e with
    | none => simp [hstep] at hr
    | some s1 =>
      rw [hstep] at hr
      exact ih (Reachable.step e h hstep) hr

/-- Only the two return events change the counts of returned sends. -/
theorem step_sendReturns {g : Globals} {s s' : State} {e : Event} (he : step g s e = some s')
    (hl : e ≠ .lSendReturn) (hi : e ≠ .iSendReturn) :
    s'.lSendReturns = s.lSendReturns ∧ s'.iSendReturns = s.iSendReturns := by
  unfold GinGraphql.step at he
  split at he
  · cases he
  · cases e <;> simp only at he <;> repeat' split at he
    all_goals first
      | exact absurd rfl hl
      | exact absurd rfl hi
      | (cases he
         exact ⟨rfl, rfl⟩)
      | cases he

/-- A run without a return event leaves the counts of returned sends as they were. -/
theorem run_sendReturns {g : Globals} (es : List Event) {s s' : State}
    (hr : run g s es = some s') (hes : noSendReturn es = true) :
    s'.lSendReturns = s.lSendReturns ∧ s'.iSendReturns = s.iSendReturns := by
  induction es generalizing s with
  | nil =>
    simp only [GinGraphql.run, Option.some.injEq] at hr
    subst hr
    exact ⟨rfl, rfl⟩
  | cons e es ih =>
    simp only [noSendReturn, List.all_cons, Bool.and_eq_true, bne_iff_ne, ne_eq] at hes
    simp only [GinGraphql.run] at hr
    cases hstep : step g s e with
    | none => simp [hstep] at hr
    | some s1 =>
      rw [hstep] at hr
      have h1 := step_sendReturns hstep hes.1.1 hes.1.2
      have h2 := ih hr (by simpa [noSendReturn] using hes.2)
      exact ⟨h2.1.trans h1.1, h2.2.trans h1.2⟩


/-- The end of a sample run that can happen is reachable. -/
theorem reachable_finalState (es : List Event)
    (h : (run sampleGlobals State.init es).isSome = true) :
    Reachable sampleGlobals (finalState es) := by
  unfold finalState
  cases hr : run sampleGlobals State.init es with
  | none => simp [hr] at h
  | some s => exact reachable_run es Reachable.init hr

/-- The wait of `main` is over exactly when it has received a value. -/
theorem released_iff_got (m : MPc) : m.released = true ↔ ∃ v, m.got = some v := by
  cases m <;> simp [MPc.released, MPc.got]

/-- Without a store of another task in between, the listener task tests the
value `server.ListenAndServe` returned: it goes on to line 147 exactly when the
value is non-nil and does not render as `http: Server closed`. -/
theorem listener_uninterrupted (g : Globals) (s : State) (r : Iface)
    (hL : s.L = .assign r) (hh : s.halted = false) :
    (r = none → (run g s [.lAssign, .lTestNil]).map State.L = some .done)
      ∧ (r ≠ none → sprintV r = serverClosedText →
          (run g s [.lAssign, .lTestNil, .lTestClosed]).map State.L = some .done)
      ∧ (r ≠ none → sprintV r ≠ serverClosedText →
          (run g s [.lAssign, .lTestNil, .lTestClosed]).map State.L = some .logError) := by
  have hp : s.panicked = false ∧ s.M.isReturned = false := by
    simpa [State.halted] using hh
  refine ⟨?_, ?_, ?_⟩
  · intro hr
    simp [run, step, hL, hr, State.halted, hp.1, hp.2]
  · intro hr ht
    simp [run, step, hL, hr, ht, State.halted, hp.1, hp.2]
  · intro hr ht
    simp [run, step, hL, hr, ht, State.halted, hp.1, hp.2]

/-- Without a store of another task in between, the interrupt task notifies
with the value `server.Close` returned. -/
theorem interrupt_uninterrupted (g : Globals) (s : State) (sig : Signal) (r : Iface)
    (hI : s.I = .closing sig) (hh : s.halted = false) :
    (run g s [.iClose r, .iAssign, .iNotice]).map State.outbox
      = some (s.outbox ++ [⟨g.AdminChat, noticeMessage g r⟩]) := by
  have hp : s.panicked = false ∧ s.M.isReturned = false := by
    simpa [State.halted] using hh
  simp [run, step, hI, State.halted, NoticeSystemManager, hp.1, hp.2]

/-- C1 as stated fails.  In the run with a fatal listener error and no
interrupt, `main` is released with no call of `server.Close` at all and one
notification; in the run where an interrupt follows the fatal listener error,
`server.Close` has run once and `NoticeSystemManager` twice. -/
theorem C1_not_exactly_once :
    (run sampleGlobals State.init runListenerFatal).map
        (fun s => (s.M.released, s.closeCalls, s.noticeCalls)) = some (true, 0, 1)
      ∧ (run sampleGlobals State.init runFatalThenInterrupt).map
        (fun s => (s.closeCalls, s.noticeCalls)) = some (1, 2) := by
  decide

/-- C1, amended: in every reachable state of the three tasks, `server.Close`
has run at most once and not at all while the interrupt task has received no
signal; each task has run `NoticeSystemManager` at most once; when the wait of
`main` is over at least one notification has run; when `main` has received a
signal, `server.Close` and the notification of the interrupt task have each run
exactly once; when `main` has received the empty value of the closed channel
the listener task has notified exactly once. -/
theorem C1_close_notice_bounds (g : Globals) (s : State) (h : Reachable g s) :
    s.closeCalls ≤ 1 ∧ s.lNoticeCalls ≤ 1 ∧ s.iNoticeCalls ≤ 1
      ∧ (s.I = .start ∨ s.I = .waitSignal → s.closeCalls = 0)
      ∧ (s.M.released = true → 1 ≤ s.noticeCalls)
      ∧ (∀ sig, s.M.got = some (.signal sig) → s.closeCalls = 1 ∧ s.iNoticeCalls = 1)
      ∧ (s.M.got = some .nil → s.lNoticeCalls = 1) := by
  have hinv := reachable_inv h
  have hc : s.I.closes ≤ 1 := by cases s.I <;> simp [IPc.closes]
  have hi : s.I.notices ≤ 1 := by cases s.I <;> simp [IPc.notices]
  have hl : s.listenerNotices ≤ 1 := by
    unfold State.listenerNotices
    repeat' split
    all_goals omega
  have hnil : s.M.got = some .nil → s.lNoticeCalls = 1 := by
    intro hv
    rcases hinv.got _ hv with ⟨-, hcl⟩ | ⟨sig, hsig, -⟩
    · rw [hinv.lnotices, State.listenerNotices, if_pos hcl]
    · cases hsig
  have hsig : ∀ sig, s.M.got = some (.signal sig) → s.closeCalls = 1 ∧ s.iNoticeCalls = 1 := by
    intro sig hv
    rcases hinv.got _ hv with ⟨hnil, -⟩ | ⟨sig', -, hI⟩
    · cases hnil
    · rw [hinv.closes, hinv.inotices, hI]
      exact ⟨rfl, rfl⟩
  refine ⟨hinv.closes ▸ hc, hinv.lnotices ▸ hl, hinv.inotices ▸ hi, ?_, ?_, hsig, hnil⟩
  · intro hI
    rw [hinv.closes]
    rcases hI with hI | hI <;> rw [hI] <;> rfl
  · intro hrel
    obtain ⟨v, hv⟩ := (released_iff_got s.M).1 hrel
    unfold State.noticeCalls
    cases v with
    | nil => have := hnil hv; omega
    | signal sig => have := (hsig sig hv).2; omega
    | error e =>
      rcases hinv.got _ hv with ⟨h1, -⟩ | ⟨sig, h1, -⟩ <;> cases h1

/-- C1, amended, at the end of the run with an interrupt only. -/
theorem C1_close_notice_bounds_witness :
    Reachable sampleGlobals (finalState runInterruptOnly)
      ∧ (finalState runInterruptOnly).M.released = true
      ∧ (finalState runInterruptOnly).closeCalls ≤ 1
      ∧ 1 ≤ (finalState runInterruptOnly).noticeCalls :=
  have hr := reachable_finalState runInterruptOnly (by decide)
  have h := C1_close_notice_bounds sampleGlobals (finalState runInterruptOnly) hr
  ⟨hr, by decide, h.1, h.2.2.2.2.1 (by decide)⟩

/-- C2 on the run with an interrupt only in which `server.Close` returns an
error: `server.ListenAndServe` returns `http.ErrServerClosed`, yet the listener
task reads the error of `server.Close` from the shared `err`, takes it for
fatal, sends a second notification and closes `exit`, on which the interrupt
task then panics. -/
theorem C2_close_error_classified_fatal :
    (run sampleGlobals State.init runInterruptCloseError).map
        (fun s => (s.lNoticeCalls, s.iNoticeCalls, s.exitClosed, s.panicked,
          s.outbox.map Sent.text))
      = some (1, 1, true, true,
          ["localhost:8080 伺服器開啟了!",
            "localhost:8080 伺服器關閉了!  (close tcp [::]:8080: use of closed network connection)",
            "localhost:8080 伺服器關閉了!  (close tcp [::]:8080: use of closed network connection)"]) := by
  decide

/-- C4 on the run with an interrupt only in which the listener task stores the
result of `server.ListenAndServe` into the shared `err` before the interrupt
task reads it: the one notification carries `http: Server closed`, neither the
error `server.Close` returned nor, when it returned nil, the manual-close
text. -/
theorem C4_close_error_overwritten :
    (run sampleGlobals State.init (runInterruptOverwritten (some closeError))).map
        (fun s => (s.M, s.closeCalls, s.outbox.map Sent.text))
      = some (.returned (.signal .SIGINT), 1,
          ["localhost:8080 伺服器開啟了!",
            "localhost:8080 伺服器關閉了!  (http: Server closed)"])
      ∧ (run sampleGlobals State.init (runInterruptOverwritten none)).map
        (fun s => (s.M, s.closeCalls, s.outbox.map Sent.text))
      = some (.returned (.signal .SIGINT), 1,
          ["localhost:8080 伺服器開啟了!",
            "localhost:8080 伺服器關閉了!  (http: Server closed)"]) := by
  decide

/-- C10 on the run where an interrupt follows a fatal listener error before
`main` is scheduled: the interrupt task stands at its send on `exit`, which the
listener task has closed, and the send panics. -/
theorem C10_send_on_closed_exit :
    (run sampleGlobals State.init runFatalThenInterrupt.dropLast).map
        (fun s => (s.exitClosed, s.I, s.panicked,
          (step sampleGlobals s .iSendExit).map State.panicked))
      = some (true, .sendExit .SIGINT, false, some true) := by
  decide

/-- C5 as stated fails.  In the run with an interrupt only, once the interrupt
task is inside `Bot.SendMessage` its send on `exit` cannot happen; and no run
in which no `Bot.SendMessage` of a shutdown notification returns ever ends the
wait of `main`. -/
theorem C5_release_waits_for_send :
    (run sampleGlobals State.init runInterruptBlocked).map
        (fun s => (s.I, step sampleGlobals s .iSendExit)) = some (.sending .SIGINT, none)
      ∧ ∀ es s, noSendReturn es = true → run sampleGlobals State.init es = some s →
          s.M.released = false := by
  refine ⟨by decide, ?_⟩
  intro es s hes hr
  have hinv := reachable_inv (reachable_run es Reachable.init hr)
  have hcnt := run_sendReturns es hr hes
  cases hm : s.M.released with
  | false => rfl
  | true =>
    obtain ⟨v, hv⟩ := (released_iff_got s.M).1 hm
    rcases hinv.got _ hv with ⟨-, hcl⟩ | ⟨sig, -, hI⟩
    · have h1 := hinv.lreturns
      rw [State.listenerSendReturns, if_pos hcl, hcnt.1] at h1
      cases h1
    · have h1 := hinv.ireturns
      rw [hI, hcnt.2] at h1
      cases h1

/-- C5, amended: in every reachable state, `exit` is closed only after the
`Bot.SendMessage` of the listener task has returned, `main` has received a
signal only after the `Bot.SendMessage` of the interrupt task has returned, and
the wait of `main` is over only after one of them has returned. -/
theorem C5_release_after_send_returned (g : Globals) (s : State) (h : Reachable g s) :
    (s.exitClosed = true → s.lSendReturns = 1)
      ∧ (∀ sig, s.M.got = some (.signal sig) → s.iSendReturns = 1)
      ∧ (s.M.released = true → 1 ≤ s.lSendReturns + s.iSendReturns) := by
  have hinv := reachable_inv h
  have h1 : s.exitClosed = true → s.lSendReturns = 1 := by
    intro hcl
    rw [hinv.lreturns, State.listenerSendReturns, if_pos hcl]
  have h2 : ∀ sig, s.M.got = some (.signal sig) → s.iSendReturns = 1 := by
    intro sig hv
    rcases hinv.got _ hv with ⟨hnil, -⟩ | ⟨sig', -, hI⟩
    · cases hnil
    · rw [hinv.ireturns, hI]
      rfl
  refine ⟨h1, h2, ?_⟩
  intro hrel
  obtain ⟨v, hv⟩ := (released_iff_got s.M).1 hrel
  rcases hinv.got _ hv with ⟨-, hcl⟩ | ⟨sig, hsig, -⟩
  · have := h1 hcl
    omega
  · subst hsig
    have := h2 sig hv
    omega

/-- C5, amended, at the end of the run with a fatal listener error. -/
theorem C5_release_after_send_returned_witness :
    Reachable sampleGlobals (finalState runListenerFatal)
      ∧ (finalState runListenerFatal).exitClosed = true
      ∧ (finalState runListenerFatal).lSendReturns = 1 :=
  have hr := reachable_finalState runListenerFatal (by decide)
  ⟨hr, by decide,
    (C5_release_after_send_returned sampleGlobals (finalState runListenerFatal) hr).1 (by decide)⟩

/-- C6 as stated fails.  In the run with a fatal listener error and no
interrupt, `main` receives the empty value from the closed `exit` and logs
`Signal: <nil>`, not the error. -/
theorem C6_listener_failure_gives_nil :
    (run sampleGlobals State.init runListenerFatal).map (fun s => (s.M, s.logs))
      = some (.returned .nil,
          ["Server Listening on  localhost:8080", "結束程式請按 [Ctrl + C]",
            "Server Error listen tcp :8080: bind: address already in use",
            "\nSignal: <nil>", "程式結束"]) := by
  decide

/-- C6, amended: in every reachable state, a value `main` has received from
`exit` is either the signal the interrupt task received, or the empty value of
the channel the listener task closed, in which case the listener task is done
and a `Server Error` line is in the log; it is never an error value. -/
theorem C6_exit_value (g : Globals) (s : State) (v : ExitVal) (h : Reachable g s)
    (hv : s.M.got = some v) :
    (v = .nil ∧ s.exitClosed = true ∧ s.L = .done ∧ ∃ t, ("Server Error " ++ t) ∈ s.logs)
      ∨ (∃ sig, v = .signal sig ∧ s.I = .done sig) := by
  have hinv := reachable_inv h
  rcases hinv.got _ hv with ⟨hnil, hcl⟩ | hsig
  · exact Or.inl ⟨hnil, hcl, hinv.closed_done hcl,
      hinv.logged (by simp [State.listenerLogged, hcl])⟩
  · exact Or.inr hsig

/-- C6, amended, at the end of the run with an interrupt only. -/
theorem C6_exit_value_witness :
    Reachable sampleGlobals (finalState runInterruptOnly)
      ∧ (finalState runInterruptOnly).M.got = some (.signal .SIGTERM)
      ∧ ((ExitVal.signal .SIGTERM = .nil ∧ (finalState runInterruptOnly).exitClosed = true
            ∧ (finalState runInterruptOnly).L = .done
            ∧ ∃ t, ("Server Error " ++ t) ∈ (finalState runInterruptOnly).logs)
          ∨ (∃ sig, ExitVal.signal .SIGTERM = .signal sig
            ∧ (finalState runInterruptOnly).I = .done sig)) :=
  have hr := reachable_finalState runInterruptOnly (by decide)
  ⟨hr, by decide,
    C6_exit_value sampleGlobals (finalState runInterruptOnly) (.signal .SIGTERM) hr (by decide)⟩

end GinGraphql
